import Mathlib

/-!
Verification development for the lendaswap client SDK.

The TypeScript sources under ts-sdk define the wire-level types (api.ts),
the Dexie storage providers (dexieSwapStorage.ts, dexieWalletStorage.ts)
and the direction-tagging client wrappers. The derivation engine, index
counter, lifecycle predicates and recovery coordinator live in the Rust
WASM core, which is not part of the published sources; those components
are modelled from the specification, as marked on each definition.

Numbers carried by wire types are modelled as integers; times, locktimes
and derivation indices as natural numbers.
-/

set_option linter.unusedVariables false

/-- Swap status enumeration, transcribed from the union type SwapStatus in
ts-sdk/src/api.ts lines 123-136, in source order. These match the
server-side status values. -/
inductive SwapStatus where
  | pending
  | clientfunded
  | clientrefunded
  | serverfunded
  | clientredeeming
  | clientredeemed
  | serverredeemed
  | clientfundedserverrefunded
  | clientrefundedserverfunded
  | clientrefundedserverrefunded
  | expired
  | clientinvalidfunded
  | clientfundedtoolate
deriving DecidableEq

/-- Wire string of each status, exactly the string literal of the union
member in api.ts. -/
def SwapStatus.wire : SwapStatus → String
  | .pending => "pending"
  | .clientfunded => "clientfunded"
  | .clientrefunded => "clientrefunded"
  | .serverfunded => "serverfunded"
  | .clientredeeming => "clientredeeming"
  | .clientredeemed => "clientredeemed"
  | .serverredeemed => "serverredeemed"
  | .clientfundedserverrefunded => "clientfundedserverrefunded"
  | .clientrefundedserverfunded => "clientrefundedserverfunded"
  | .clientrefundedserverrefunded => "clientrefundedserverrefunded"
  | .expired => "expired"
  | .clientinvalidfunded => "clientinvalidfunded"
  | .clientfundedtoolate => "clientfundedtoolate"

/-- All members of the SwapStatus union, in source order. -/
def allSwapStatuses : List SwapStatus :=
  [.pending, .clientfunded, .clientrefunded, .serverfunded, .clientredeeming,
   .clientredeemed, .serverredeemed, .clientfundedserverrefunded,
   .clientrefundedserverfunded, .clientrefundedserverrefunded, .expired,
   .clientinvalidfunded, .clientfundedtoolate]

/-- The wire vocabulary as enumerated in section 4.4 of the specification,
in the order the specification lists it. -/
def specWireValues : List String :=
  ["pending", "clientfunded", "serverfunded", "clientredeeming",
   "clientredeemed", "serverredeemed", "clientrefunded", "expired",
   "clientfundedserverrefunded", "clientrefundedserverfunded",
   "clientrefundedserverrefunded", "clientinvalidfunded",
   "clientfundedtoolate"]

/-- Modelled from the spec: the lifecycle permission predicate canClaim of
section 4.4 (the predicate itself lives in the WASM core, absent from the
published sources). It is true only for serverfunded. -/
def canClaim : SwapStatus → Bool
  | .serverfunded => true
  | _ => false

/-- Modelled from the spec: the lifecycle permission predicate canRefund of
section 4.4 (the predicate itself lives in the WASM core, absent from the
published sources). True only when the state is clientfunded,
clientfundedserverrefunded or clientfundedtoolate and the absolute refund
locktime has expired. -/
def canRefund (s : SwapStatus) (now refundLocktime : Nat) : Bool :=
  match s with
  | .clientfunded | .clientfundedserverrefunded | .clientfundedtoolate =>
      decide (refundLocktime ≤ now)
  | _ => false

/-- Token identifier union TokenIdString from api.ts. -/
inductive TokenId where
  | btc_lightning
  | btc_arkade
  | usdc_pol
  | usdt0_pol
  | usdc_eth
  | usdt_eth
deriving DecidableEq

/-- Direction tag added by the SDK to swap responses (the string literal
types btc_to_evm and evm_to_btc of api.ts). -/
inductive Direction where
  | btc_to_evm
  | evm_to_btc
deriving DecidableEq

/-- Target or source EVM network parameter of the create functions. -/
inductive EvmNetwork where
  | ethereum
  | polygon
deriving DecidableEq

/-- Common fields shared across all swap directions, from interface
SwapCommonFields in api.ts. -/
structure SwapCommonFields where
  id : String
  status : SwapStatus
  hash_lock : String
  fee_sats : Int
  usd_amount : Int
  sender_pk : String
  receiver_pk : String
  server_pk : String
  refund_locktime : Nat
  unilateral_claim_delay : Nat
  unilateral_refund_delay : Nat
  unilateral_refund_without_receiver_delay : Nat
  network : String
  created_at : String
deriving DecidableEq

/-- Backend payload of a BTC to EVM swap response: every field of interface
BtcToEvmSwapResponse in api.ts except direction, which the server does not
return (the TypeScript code receives Omit BtcToEvmSwapResponse direction
from the WASM client). -/
structure BtcToEvmFields extends SwapCommonFields where
  htlc_address_evm : String
  htlc_address_arkade : String
  user_address_evm : String
  ln_invoice : String
  sats_receive : Int
  source_token : TokenId
  target_token : TokenId
  bitcoin_htlc_claim_txid : Option String
  bitcoin_htlc_fund_txid : Option String
  evm_htlc_claim_txid : Option String
  evm_htlc_fund_txid : Option String
deriving DecidableEq

/-- BTC to EVM swap response of api.ts: the backend fields plus the
direction field added by the SDK. -/
structure BtcToEvmSwapResponse extends BtcToEvmFields where
  direction : Direction
deriving DecidableEq

/-- Backend payload of an EVM to BTC swap response: every field of
interface EvmToBtcSwapResponse in api.ts except direction. -/
structure EvmToBtcFields extends SwapCommonFields where
  htlc_address_evm : String
  htlc_address_arkade : String
  user_address_evm : String
  user_address_arkade : Option String
  ln_invoice : String
  source_token : TokenId
  target_token : TokenId
  sats_receive : Int
  bitcoin_htlc_fund_txid : Option String
  bitcoin_htlc_claim_txid : Option String
  evm_htlc_claim_txid : Option String
  evm_htlc_fund_txid : Option String
  create_swap_tx : Option String
  approve_tx : Option String
  gelato_forwarder_address : Option String
  gelato_user_nonce : Option String
  gelato_user_deadline : Option String
  source_token_address : String
deriving DecidableEq

/-- EVM to BTC swap response of api.ts: the backend fields plus the
direction field added by the SDK. -/
structure EvmToBtcSwapResponse extends EvmToBtcFields where
  direction : Direction
deriving DecidableEq

/-- Request to create an Arkade to EVM swap, interface SwapRequest of
api.ts. -/
structure SwapRequest where
  target_address : String
  target_amount : Int
  target_token : TokenId
  referral_code : Option String
deriving DecidableEq

/-- Request to create an EVM to Arkade swap, interface
EvmToArkadeSwapRequest of api.ts. -/
structure EvmToArkadeSwapRequest where
  target_address : String
  source_amount : Int
  source_token : TokenId
  user_address : String
  referral_code : Option String
deriving DecidableEq

/-- Request to create an EVM to Lightning swap, interface
EvmToLightningSwapRequest of api.ts. -/
structure EvmToLightningSwapRequest where
  bolt11_invoice : String
  source_token : TokenId
  user_address : String
  referral_code : Option String
deriving DecidableEq

/-- Model of the function fromWasm of api.ts: serde_wasm_bindgen may hand
back a Map, which fromWasm converts to a plain object with the same
entries; on field content it is the identity, which is how it is modelled
here. -/
def fromWasm {T : Type} (value : T) : T :=
  value

/-- Model of the WASM client consumed by class Client in api.ts: one
abstract backend function per raw create call, taking the same positional
arguments the TypeScript wrapper forwards and returning the backend
response, which carries no direction field. -/
structure WasmClient where
  createArkadeToEvmSwapRaw :
    String → Int → TokenId → EvmNetwork → Option String → BtcToEvmFields
  createEvmToArkadeSwapRaw :
    String → String → Int → TokenId → EvmNetwork → Option String → EvmToBtcFields
  createEvmToLightningSwapRaw :
    String → String → TokenId → EvmNetwork → Option String → EvmToBtcFields

/-- Class Client of api.ts holds the WASM client. -/
structure Client where
  client : WasmClient

/-- Client.createArkadeToEvmSwap of api.ts lines 474-488: forwards the
request fields to the WASM client and returns the response spread together
with the client-side tag direction btc_to_evm. -/
def Client.createArkadeToEvmSwap (self : Client) (request : SwapRequest)
    (targetNetwork : EvmNetwork) : BtcToEvmSwapResponse :=
  let response := self.client.createArkadeToEvmSwapRaw
    request.target_address request.target_amount request.target_token
    targetNetwork request.referral_code
  let obj := fromWasm response
  { toBtcToEvmFields := obj, direction := Direction.btc_to_evm }

/-- Client.createEvmToArkadeSwap of api.ts lines 497-512: forwards the
request fields to the WASM client and returns the response spread together
with the client-side tag direction evm_to_btc. -/
def Client.createEvmToArkadeSwap (self : Client) (request : EvmToArkadeSwapRequest)
    (sourceNetwork : EvmNetwork) : EvmToBtcSwapResponse :=
  let response := self.client.createEvmToArkadeSwapRaw
    request.target_address request.user_address request.source_amount
    request.source_token sourceNetwork request.referral_code
  let obj := fromWasm response
  { toEvmToBtcFields := obj, direction := Direction.evm_to_btc }

/-- Client.createEvmToLightningSwap of api.ts lines 521-535: forwards the
request fields to the WASM client and returns the response spread together
with the client-side tag direction evm_to_btc. -/
def Client.createEvmToLightningSwap (self : Client) (request : EvmToLightningSwapRequest)
    (sourceNetwork : EvmNetwork) : EvmToBtcSwapResponse :=
  let response := self.client.createEvmToLightningSwapRaw
    request.bolt11_invoice request.user_address request.source_token
    sourceNetwork request.referral_code
  let obj := fromWasm response
  { toEvmToBtcFields := obj, direction := Direction.evm_to_btc }

/-- Derivation error kinds of section 4.1 of the specification. -/
inductive DeriveError where
  | InvalidSeed
  | IndexOutOfRange
deriving DecidableEq

/-- Swap secret bundle of section 3 of the specification (SwapParams in
the TypeScript types): secret key, public key, preimage, preimage hash,
seed-wide identity key and the derivation index used. Key and hash values
are modelled as natural numbers standing for their byte strings. -/
structure SwapSecretBundle where
  ownSecretKey : Nat
  ownPublicKey : Nat
  preimage : Nat
  preimageHash : Nat
  identityKey : Nat
  keyIndex : Nat
deriving DecidableEq

/-- Modelled from the spec: the BIP32-style key stretching primitive is an
out-of-scope library collaborator (section 1); section 4.1 requires the
derivation to inject the index through an unambiguous sub-path into the
key-stretching computation. The primitive is modelled as the injective
pairing of the seed with the (branch, index) sub-path. -/
def stretchSubPath (seed branch index : Nat) : Nat :=
  Nat.pair seed (Nat.pair branch index)

/-- Modelled from the spec: the hash primitive applied to the preimage is
an out-of-scope library collaborator, modelled as an injective tagged
pairing. -/
def hashPrimitive (p : Nat) : Nat :=
  Nat.pair 3 p

/-- Modelled from the spec: base-point scalar multiplication producing the
public key of a secret key, a bijection on the scalar range, modelled as
an injective tagged pairing. -/
def scalarMultBase (sk : Nat) : Nat :=
  Nat.pair 4 sk

/-- Modelled from the spec: the Derivation Engine of section 4.1,
derive(seed, index), pure and total over index in [0, 2^31), failing with
IndexOutOfRange beyond the supported depth. Secret key and preimage come
from distinct sub-paths at the given index; the identity key is seed-wide
and index-independent. The engine lives in the WASM core, absent from the
published sources. -/
def derive (seed index : Nat) : Except DeriveError SwapSecretBundle :=
  if index < 2 ^ 31 then
    let sk := stretchSubPath seed 0 index
    let pre := stretchSubPath seed 1 index
    Except.ok
      { ownSecretKey := sk
        ownPublicKey := scalarMultBase sk
        preimage := pre
        preimageHash := hashPrimitive pre
        identityKey := scalarMultBase (stretchSubPath seed 2 0)
        keyIndex := index }
  else
    Except.error DeriveError.IndexOutOfRange

/-- Modelled from the spec: parsing of the mnemonic seed material, an
out-of-scope BIP-style encoding (section 1). An empty mnemonic fails with
InvalidSeed; otherwise the seed is an injective encoding of the phrase. -/
def seedOfMnemonic (m : String) : Option Nat :=
  if m.length = 0 then none
  else some (m.data.foldl (fun a c => Nat.pair a c.toNat) 1)

/-- Persisted wallet storage state seen by the wallet: the mnemonic (none
when not yet generated) and the persisted key index counter, as in the
wallet credential store of section 6. A simulated process restart reloads
this state unchanged. -/
structure WalletState where
  mnemonic : Option String
  keyIndex : Nat
deriving DecidableEq

/-- Modelled from the spec: deriveSwapParamsAtIndex(i) of section 6
derives at an explicit index without touching the counter. -/
def deriveSwapParamsAtIndex (st : WalletState) (i : Nat) :
    Except DeriveError SwapSecretBundle :=
  match st.mnemonic.bind seedOfMnemonic with
  | none => Except.error DeriveError.InvalidSeed
  | some seed => derive seed i

/-- Modelled from the spec: deriveSwapParams() of section 6 composed with
reserveNextIndex() of section 4.2: read the current counter, persist
current plus one, then derive at the reserved value and return the bundle
together with the updated storage state. -/
def deriveSwapParams (st : WalletState) :
    Except DeriveError (SwapSecretBundle × WalletState) :=
  match st.mnemonic.bind seedOfMnemonic with
  | none => Except.error DeriveError.InvalidSeed
  | some seed =>
    let reserved := st.keyIndex
    let st' := { st with keyIndex := reserved + 1 }
    (derive seed reserved).map (fun b => (b, st'))

/-- Runs n successive deriveSwapParams calls against the same wallet
storage, collecting the key indices of the returned bundles; a failing
call ends the run. -/
def runDerivations : WalletState → Nat → List Nat × WalletState
  | st, 0 => ([], st)
  | st, n + 1 =>
    match deriveSwapParams st with
    | Except.ok (b, st') =>
      let rest := runDerivations st' n
      (b.keyIndex :: rest.1, rest.2)
    | Except.error _ => ([], st)

/-- Modelled from the spec: setFloor(n) of section 4.2 advances the
counter to max(current, n) and never decreases it. -/
def setFloor (current n : Nat) : Nat :=
  max current n

/-- One recovered swap entry of the backend response, matching type
RecoveredSwap of api.ts: the swap response tagged with its original
derivation index. The server response body is treated as an abstract wire
payload. -/
structure RecoveredSwapEntry where
  swapId : String
  index : Nat
  response : String
deriving DecidableEq

/-- Backend response of the recover endpoint, matching interface
RecoverSwapsResponse of api.ts: the recovered swaps plus the highest index
ever associated with the identity. -/
structure RecoverResponse where
  swaps : List RecoveredSwapEntry
  highest_index : Nat
deriving DecidableEq

/-- Local state the Recovery Coordinator acts on: the Index Counter and
the Swap Record Store, the latter as an association of swap ids to stored
records (secret bundle plus server response). -/
structure RecoveryState where
  counter : Nat
  store : List (String × SwapSecretBundle × String)
deriving DecidableEq

/-- Overwrite-by-id upsert into the recovery store association list. -/
def storePut (s : List (String × SwapSecretBundle × String)) (k : String)
    (v : SwapSecretBundle × String) : List (String × SwapSecretBundle × String) :=
  match s with
  | [] => [(k, v)]
  | p :: rest => if p.1 = k then (k, v) :: rest else p :: storePut rest k v

/-- Modelled from the spec: the Recovery Coordinator of section 4.5. For
each returned tuple it re-derives the bundle at the recorded index and
writes the full record into the store, overwriting any local copy; after
all records are written it raises the Index Counter via
setFloor(highest_index + 1). A derivation failure aborts the call with no
effects, matching the all-or-nothing commit. -/
def recoverSwaps (seed : Nat) (st : RecoveryState) (resp : RecoverResponse) :
    Except DeriveError RecoveryState :=
  (resp.swaps.mapM (fun e =>
      (derive seed e.index).map (fun b => (e.swapId, b, e.response)))).map
    (fun records =>
      { counter := setFloor st.counter (resp.highest_index + 1)
        store := records.foldl (fun s r => storePut s r.1 r.2) st.store })

/-- Property value of a stored JavaScript object. The swap store treats
the payloads it persists as abstract values (the store never derives or
validates cryptographic fields); id values are strings. -/
inductive JsValue where
  | str (s : String)
  | blob (n : Nat)
deriving DecidableEq

/-- JavaScript object, modelled as its ordered own-property list. -/
abbrev JsObject := List (String × JsValue)

/-- Property access on a JavaScript object. -/
def getProp (o : JsObject) (k : String) : Option JsValue :=
  (o.find? (fun p => p.1 == k)).map (fun p => p.2)

/-- Property assignment semantics of an object literal: a later duplicate
key overwrites the value in place, otherwise the property is appended. -/
def setProp (o : JsObject) (k : String) (v : JsValue) : JsObject :=
  if o.any (fun p => p.1 == k) then
    o.map (fun p => if p.1 == k then (k, v) else p)
  else
    o ++ [(k, v)]

/-- Spread semantics: the literal with base properties followed by the
spread of o assigns each property of o in order. -/
def spreadInto (base : JsObject) (o : JsObject) : JsObject :=
  o.foldl (fun acc p => setProp acc p.1 p.2) base

/-- Rest-pattern semantics: all own properties except the named one, in
order. -/
def removeProp (o : JsObject) (k : String) : JsObject :=
  o.filter (fun p => p.1 != k)

/-- Interface ExtendedSwapStorageData of api.ts: the swap response and the
derived swap params, both abstract payloads to the store. -/
structure SwapStoreData where
  response : JsValue
  swap_params : JsValue
deriving DecidableEq

/-- The JavaScript object a SwapStoreData value denotes: exactly the two
declared properties, in declaration order. -/
def SwapStoreData.toObj (d : SwapStoreData) : JsObject :=
  [("response", d.response), ("swap_params", d.swap_params)]

/-- State of the Dexie swaps table: records keyed by their primary key,
kept in ascending key order as IndexedDB does. -/
abbrev SwapTable := List (String × JsObject)

/-- The empty swaps table. -/
def tableEmpty : SwapTable := []

/-- upsert of Dexie put: records are kept sorted by primary key; a record
with an existing key replaces it, otherwise the record is inserted at its
ordered position. -/
def tablePut (t : SwapTable) (k : String) (r : JsObject) : SwapTable :=
  match t with
  | [] => [(k, r)]
  | p :: rest =>
    if k < p.1 then (k, r) :: p :: rest
    else if k = p.1 then (k, r) :: rest
    else p :: tablePut rest k r

/-- Lookup of Dexie get by primary key. -/
def tableGet (t : SwapTable) (k : String) : Option JsObject :=
  (t.find? (fun p => p.1 == k)).map (fun p => p.2)

/-- DexieSwapStorageProvider.store of dexieSwapStorage.ts lines 90-92:
puts the record built by the literal with the id property followed by the
spread of the data object. Dexie keys the record by its id property,
which the literal sets to the swapId argument. -/
def DexieSwapStorageProvider.store (st : SwapTable) (swapId : String)
    (data : SwapStoreData) : SwapTable :=
  tablePut st swapId (spreadInto [("id", JsValue.str swapId)] data.toObj)

/-- DexieSwapStorageProvider.get of dexieSwapStorage.ts lines 74-82: looks
the record up by id, returns null when absent, and otherwise removes the
id property by rest destructuring before returning the data. -/
def DexieSwapStorageProvider.get (st : SwapTable) (swapId : String) :
    Option JsObject :=
  (tableGet st swapId).map (fun record => removeProp record "id")

/-- DexieSwapStorageProvider.delete of dexieSwapStorage.ts lines 99-101:
removes the record with the given primary key. -/
def DexieSwapStorageProvider.delete (st : SwapTable) (swapId : String) :
    SwapTable :=
  st.filter (fun p => p.1 != swapId)

/-- DexieSwapStorageProvider.list of dexieSwapStorage.ts lines 108-110:
the primary keys of the table. -/
def DexieSwapStorageProvider.list (st : SwapTable) : List String :=
  st.map (fun p => p.1)

/-- DexieSwapStorageProvider.getAll of dexieSwapStorage.ts lines 124-126:
toArray returns the stored records themselves, id property included. -/
def DexieSwapStorageProvider.getAll (st : SwapTable) : List JsObject :=
  st.map (fun p => p.2)

/-- Table states reachable from the empty table by the store and delete
operations of DexieSwapStorageProvider. -/
inductive SwapTableReachable : SwapTable → Prop where
  | empty : SwapTableReachable tableEmpty
  | store (st : SwapTable) (swapId : String) (data : SwapStoreData) :
      SwapTableReachable st →
      SwapTableReachable (DexieSwapStorageProvider.store st swapId data)
  | delete (st : SwapTable) (swapId : String) :
      SwapTableReachable st →
      SwapTableReachable (DexieSwapStorageProvider.delete st swapId)

/-- Record shaped as DexieSwapStorageProvider.store builds it for its key. -/
def storedShape (k : String) (r : JsObject) : Prop :=
  ∃ d : SwapStoreData, r = ("id", JsValue.str k) :: d.toObj

/-- Well-formedness of the swaps table: keys strictly sorted (as IndexedDB
keeps them) and every record of the shape the store writes. -/
def tableWF (t : SwapTable) : Prop :=
  t.Pairwise (fun a b => a.1 < b.1) ∧ ∀ p ∈ t, storedShape p.1 p.2

/-- Wallet record of dexieWalletStorage.ts: the mnemonic (null when not
set) and the key derivation index, stored under the fixed primary key
wallet; the single-row table is modelled as an optional record. -/
structure WalletRecord where
  mnemonic : Option String
  keyIndex : Nat
deriving DecidableEq

/-- DexieWalletStorageProvider.getMnemonic of dexieWalletStorage.ts lines
79-84: the stored mnemonic, or null when no record or none stored. -/
def DexieWalletStorageProvider.getMnemonic : Option WalletRecord → Option String
  | none => none
  | some r => r.mnemonic

/-- DexieWalletStorageProvider.setMnemonic of dexieWalletStorage.ts lines
91-100: reads the existing record and puts a full record with the new
mnemonic and the existing key index, defaulting to 0. -/
def DexieWalletStorageProvider.setMnemonic (st : Option WalletRecord)
    (mnemonic : String) : Option WalletRecord :=
  some
    { mnemonic := some mnemonic
      keyIndex := match st with | none => 0 | some r => r.keyIndex }

/-- DexieWalletStorageProvider.getKeyIndex of dexieWalletStorage.ts lines
107-112: the stored key index, or 0 when no record. -/
def DexieWalletStorageProvider.getKeyIndex : Option WalletRecord → Nat
  | none => 0
  | some r => r.keyIndex

/-- DexieWalletStorageProvider.setKeyIndex of dexieWalletStorage.ts lines
119-128: reads the existing record and puts a full record with the
existing mnemonic, defaulting to null, and the new key index. -/
def DexieWalletStorageProvider.setKeyIndex (st : Option WalletRecord)
    (index : Nat) : Option WalletRecord :=
  some
    { mnemonic := match st with | none => none | some r => r.mnemonic
      keyIndex := index }

/-- C1: for every recognized state s, canClaim s holds exactly when s is
serverfunded, and canRefund s now L holds exactly when s is one of
clientfunded, clientfundedserverrefunded, clientfundedtoolate and
now is at least L; both are false on every other state, composite and
anomaly states included. -/
theorem canClaim_canRefund_truth_tables :
    (∀ s : SwapStatus, canClaim s = true ↔ s = SwapStatus.serverfunded) ∧
    (∀ (s : SwapStatus) (now refundLocktime : Nat),
      canRefund s now refundLocktime = true ↔
        ((s = SwapStatus.clientfunded ∨ s = SwapStatus.clientfundedserverrefunded ∨
            s = SwapStatus.clientfundedtoolate) ∧ refundLocktime ≤ now)) := by
  constructor
  · intro s
    cases s <;> simp [canClaim]
  · intro s now refundLocktime
    cases s <;> simp [canRefund]

/-- C1 witness: the truth tables evaluated at serverfunded and at
clientfunded with an expired locktime. -/
theorem canClaim_canRefund_truth_tables_witness :
    canClaim SwapStatus.serverfunded = true ∧
    canRefund SwapStatus.clientfunded 10 9 = true :=
  ⟨(canClaim_canRefund_truth_tables.1 SwapStatus.serverfunded).mpr rfl,
   (canClaim_canRefund_truth_tables.2 SwapStatus.clientfunded 10 9).mpr
     ⟨Or.inl rfl, by decide⟩⟩

/-- C6: the SwapStatus union admits exactly the thirteen members of
allSwapStatuses, and the set of their wire strings is exactly the
lowercase, no-separator vocabulary enumerated in section 4.4. -/
theorem swapStatus_wire_vocabulary :
    (∀ t : SwapStatus, t ∈ allSwapStatuses) ∧
    (∀ s : String, s ∈ allSwapStatuses.map SwapStatus.wire ↔ s ∈ specWireValues) := by
  constructor
  · intro t
    cases t <;> decide
  · intro s
    constructor
    · intro h
      exact (by decide : allSwapStatuses.map SwapStatus.wire ⊆ specWireValues) h
    · intro h
      exact (by decide : specWireValues ⊆ allSwapStatuses.map SwapStatus.wire) h

/-- C6 witness: pending is a recognized wire value and serverfunded is a
member of the enumeration. -/
theorem swapStatus_wire_vocabulary_witness :
    "pending" ∈ allSwapStatuses.map SwapStatus.wire ∧
    SwapStatus.serverfunded ∈ allSwapStatuses :=
  ⟨(swapStatus_wire_vocabulary.2 "pending").mpr (by decide),
   swapStatus_wire_vocabulary.1 SwapStatus.serverfunded⟩

/-- C7: for every backend behind the WASM client, every request and every
network choice, the three create functions tag the returned response with
the client-side direction, btc_to_evm for createArkadeToEvmSwap and
evm_to_btc for the two EVM-source variants, while every other response
field passes through from the backend response unchanged. -/
theorem createSwap_direction_client_side (c : Client) (r1 : SwapRequest)
    (n1 : EvmNetwork) (r2 : EvmToArkadeSwapRequest) (n2 : EvmNetwork)
    (r3 : EvmToLightningSwapRequest) (n3 : EvmNetwork) :
    ((c.createArkadeToEvmSwap r1 n1).direction = Direction.btc_to_evm ∧
      (c.createArkadeToEvmSwap r1 n1).toBtcToEvmFields =
        c.client.createArkadeToEvmSwapRaw r1.target_address r1.target_amount
          r1.target_token n1 r1.referral_code) ∧
    ((c.createEvmToArkadeSwap r2 n2).direction = Direction.evm_to_btc ∧
      (c.createEvmToArkadeSwap r2 n2).toEvmToBtcFields =
        c.client.createEvmToArkadeSwapRaw r2.target_address r2.user_address
          r2.source_amount r2.source_token n2 r2.referral_code) ∧
    ((c.createEvmToLightningSwap r3 n3).direction = Direction.evm_to_btc ∧
      (c.createEvmToLightningSwap r3 n3).toEvmToBtcFields =
        c.client.createEvmToLightningSwapRaw r3.bolt11_invoice r3.user_address
          r3.source_token n3 r3.referral_code) :=
  ⟨⟨rfl, rfl⟩, ⟨rfl, rfl⟩, ⟨rfl, rfl⟩⟩

/-- C10: setKeyIndex leaves the stored mnemonic unchanged, preserving null
when none was set, and setMnemonic leaves the stored key index unchanged,
preserving 0 when none was set. -/
theorem walletStorage_frame_preservation :
    (∀ (st : Option WalletRecord) (i : Nat),
      DexieWalletStorageProvider.getMnemonic (DexieWalletStorageProvider.setKeyIndex st i) =
        DexieWalletStorageProvider.getMnemonic st) ∧
    (∀ (st : Option WalletRecord) (m : String),
      DexieWalletStorageProvider.getKeyIndex (DexieWalletStorageProvider.setMnemonic st m) =
        DexieWalletStorageProvider.getKeyIndex st) := by
  constructor
  · intro st i
    cases st <;> rfl
  · intro st m
    cases st <;> rfl

/-- C3: derivation at an explicit index is a function of the mnemonic and
the index alone: two wallet instances whose storages hold the same
mnemonic, whatever else differs between the storages, return identical
secret bundles at every index. -/
theorem derive_deterministic_across_instances (st1 st2 : WalletState) (i : Nat)
    (h : st1.mnemonic = st2.mnemonic) :
    deriveSwapParamsAtIndex st1 i = deriveSwapParamsAtIndex st2 i := by
  unfold deriveSwapParamsAtIndex
  rw [h]

/-- C3 witness: two storages sharing the mnemonic but differing in their
persisted counter derive identically at index 0. -/
theorem derive_deterministic_across_instances_witness :
    (WalletState.mk (some "m") 0).mnemonic = (WalletState.mk (some "m") 5).mnemonic ∧
    deriveSwapParamsAtIndex (WalletState.mk (some "m") 0) 0 =
      deriveSwapParamsAtIndex (WalletState.mk (some "m") 5) 0 :=
  ⟨rfl, derive_deterministic_across_instances (WalletState.mk (some "m") 0)
    (WalletState.mk (some "m") 5) 0 rfl⟩

/-- C5: a successful recovery leaves the counter at the maximum of its
prior value and one past the highest recovered index; in particular the
post-recovery counter is at least highest plus one and never below the
prior value. -/
theorem recoverSwaps_raises_counter (seed : Nat) (st : RecoveryState)
    (resp : RecoverResponse) (st' : RecoveryState)
    (h : recoverSwaps seed st resp = Except.ok st') :
    st'.counter = max st.counter (resp.highest_index + 1) ∧
    resp.highest_index + 1 ≤ st'.counter ∧ st.counter ≤ st'.counter := by
  unfold recoverSwaps at h
  cases hm : resp.swaps.mapM (fun e =>
      (derive seed e.index).map (fun b => (e.swapId, b, e.response))) with
  | error e =>
    rw [hm] at h
    exact absurd h (by simp [Except.map])
  | ok records =>
    rw [hm] at h
    simp only [Except.map, Except.ok.injEq] at h
    subst h
    refine ⟨rfl, ?_, ?_⟩
    · exact Nat.le_max_right _ _
    · exact Nat.le_max_left _ _

/-- C5 witness: the spec example, local counter 3 and backend highest
index 7, ends with the counter at 8. -/
theorem recoverSwaps_raises_counter_witness :
    recoverSwaps 0 (RecoveryState.mk 3 []) (RecoverResponse.mk [] 7) =
      Except.ok (RecoveryState.mk 8 []) ∧
    (RecoveryState.mk 8 []).counter =
      max (RecoveryState.mk 3 []).counter ((RecoverResponse.mk [] 7).highest_index + 1) :=
  ⟨rfl,
   (recoverSwaps_raises_counter 0 (RecoveryState.mk 3 []) (RecoverResponse.mk [] 7)
     (RecoveryState.mk 8 []) rfl).1⟩

/-- C4: for the same seed, derivation at distinct in-range indices yields
distinct secret keys, distinct public keys and distinct preimages. -/
theorem derive_distinct_indices_no_collision (seed i j : Nat) (hij : i ≠ j)
    (b1 b2 : SwapSecretBundle) (h1 : derive seed i = Except.ok b1)
    (h2 : derive seed j = Except.ok b2) :
    b1.ownSecretKey ≠ b2.ownSecretKey ∧ b1.ownPublicKey ≠ b2.ownPublicKey ∧
    b1.preimage ≠ b2.preimage := by
  simp only [derive] at h1 h2
  split at h1
  · split at h2
    · injection h1 with h1
      injection h2 with h2
      subst h1
      subst h2
      refine ⟨?_, ?_, ?_⟩ <;>
        simp [stretchSubPath, scalarMultBase, Nat.pair_eq_pair, hij]
    · simp at h2
  · simp at h1

/-- C4 witness: seed 0 at indices 0 and 1 yields bundles whose secret
keys, public keys and preimages all differ. -/
theorem derive_distinct_indices_no_collision_witness :
    derive 0 0 = Except.ok (SwapSecretBundle.mk 0 20 4 19 1300 0) ∧
    derive 0 1 = Except.ok (SwapSecretBundle.mk 1 21 9 84 1300 1) ∧
    ((SwapSecretBundle.mk 0 20 4 19 1300 0).ownSecretKey ≠
        (SwapSecretBundle.mk 1 21 9 84 1300 1).ownSecretKey ∧
      (SwapSecretBundle.mk 0 20 4 19 1300 0).ownPublicKey ≠
        (SwapSecretBundle.mk 1 21 9 84 1300 1).ownPublicKey ∧
      (SwapSecretBundle.mk 0 20 4 19 1300 0).preimage ≠
        (SwapSecretBundle.mk 1 21 9 84 1300 1).preimage) :=
  ⟨rfl, rfl,
   derive_distinct_indices_no_collision 0 0 1 (by decide)
     (SwapSecretBundle.mk 0 20 4 19 1300 0) (SwapSecretBundle.mk 1 21 9 84 1300 1)
     rfl rfl⟩

/-- Closed form of one deriveSwapParams call when the mnemonic parses and
the persisted counter is in range: the bundle is derived at the reserved
counter value and the persisted counter advances by one. -/
theorem deriveSwapParams_eq (st : WalletState) (seed : Nat)
    (h : st.mnemonic.bind seedOfMnemonic = some seed)
    (hidx : st.keyIndex < 2 ^ 31) :
    deriveSwapParams st = Except.ok
      (SwapSecretBundle.mk (stretchSubPath seed 0 st.keyIndex)
        (scalarMultBase (stretchSubPath seed 0 st.keyIndex))
        (stretchSubPath seed 1 st.keyIndex)
        (hashPrimitive (stretchSubPath seed 1 st.keyIndex))
        (scalarMultBase (stretchSubPath seed 2 0)) st.keyIndex,
       WalletState.mk st.mnemonic (st.keyIndex + 1)) := by
  simp only [deriveSwapParams, h, derive, hidx, if_true, Except.map]

/-- Closed form of n successive deriveSwapParams calls: the returned key
indices are the n consecutive values from the starting counter, and the
persisted counter ends n past where it started. -/
theorem runDerivations_spec (n : Nat) :
    ∀ (st : WalletState) (seed : Nat),
      st.mnemonic.bind seedOfMnemonic = some seed →
      st.keyIndex + n ≤ 2 ^ 31 →
      runDerivations st n =
        (List.range' st.keyIndex n, WalletState.mk st.mnemonic (st.keyIndex + n)) := by
  induction n with
  | zero =>
    intro st seed h hr
    simp [runDerivations]
  | succ n ih =>
    intro st seed h hr
    have hidx : st.keyIndex < 2 ^ 31 := by omega
    have hstep := deriveSwapParams_eq st seed h hidx
    have ih' := ih (WalletState.mk st.mnemonic (st.keyIndex + 1)) seed h
      (by simp only [WalletState.mk]; omega)
    unfold runDerivations
    rw [hstep]
    simp only [ih', List.range'_succ, Prod.mk.injEq, WalletState.mk.injEq,
      true_and]
    omega

/-- C2: across a session of n deriveSwapParams calls followed, after a
simulated restart that reloads the persisted state, by a further m calls,
the issued key indices are exactly the consecutive values from the
starting counter, strictly increasing and without any repetition; from a
fresh store they are 0, 1, 2, and so on. -/
theorem deriveSwapParams_strictly_monotone_indices (st : WalletState)
    (seed n m : Nat) (hseed : st.mnemonic.bind seedOfMnemonic = some seed)
    (hroom : st.keyIndex + (n + m) ≤ 2 ^ 31) :
    (runDerivations st n).1 ++ (runDerivations (runDerivations st n).2 m).1 =
      List.range' st.keyIndex (n + m) ∧
    List.Pairwise (· < ·)
      ((runDerivations st n).1 ++ (runDerivations (runDerivations st n).2 m).1) ∧
    ((runDerivations st n).1 ++ (runDerivations (runDerivations st n).2 m).1).Nodup ∧
    (st.keyIndex = 0 →
      (runDerivations st n).1 ++ (runDerivations (runDerivations st n).2 m).1 =
        List.range (n + m)) := by
  have h1 := runDerivations_spec n st seed hseed (by omega)
  have h2 := runDerivations_spec m (WalletState.mk st.mnemonic (st.keyIndex + n))
    seed hseed (by simp only [WalletState.mk]; omega)
  have happ :
      (runDerivations st n).1 ++ (runDerivations (runDerivations st n).2 m).1 =
        List.range' st.keyIndex (n + m) := by
    rw [h1]
    simp only [h2]
    rw [Nat.add_comm n m]
    exact List.range'_append_1 st.keyIndex n m
  refine ⟨happ, ?_, ?_, ?_⟩
  · rw [happ]
    exact List.pairwise_lt_range' st.keyIndex (n + m)
  · rw [happ]
    exact List.nodup_range' st.keyIndex (n + m)
  · intro h0
    rw [happ, h0]
    exact (List.range_eq_range' (n + m)).symm

/-- C2 witness: from a fresh store holding a parsing mnemonic, two calls,
a simulated restart, then one more call issue the indices 0, 1, 2. -/
theorem deriveSwapParams_strictly_monotone_indices_witness :
    (WalletState.mk (some "m") 0).mnemonic.bind seedOfMnemonic = some 11882 ∧
    (WalletState.mk (some "m") 0).keyIndex + (2 + 1) ≤ 2 ^ 31 ∧
    (runDerivations (WalletState.mk (some "m") 0) 2).1 ++
        (runDerivations (runDerivations (WalletState.mk (some "m") 0) 2).2 1).1 =
      List.range' (WalletState.mk (some "m") 0).keyIndex (2 + 1) :=
  ⟨by decide, by decide,
   (deriveSwapParams_strictly_monotone_indices (WalletState.mk (some "m") 0)
     11882 2 1 (by decide) (by decide)).1⟩

/-- Looking a key up right after putting a record under it returns that
record, whatever the prior table contents. -/
theorem tableGet_tablePut_self (t : SwapTable) (k : String) (r : JsObject) :
    tableGet (tablePut t k r) k = some r := by
  induction t with
  | nil => simp [tablePut, tableGet, List.find?]
  | cons p rest ih =>
    unfold tablePut
    by_cases h1 : k < p.1
    · simp [h1, tableGet, List.find?]
    · by_cases h2 : k = p.1
      · simp [h1, h2, tableGet, List.find?]
      · have hne : (p.1 == k) = false :=
          beq_eq_false_iff_ne.mpr (fun hh => h2 hh.symm)
        simp only [if_neg h1, if_neg h2, tableGet, List.find?, hne]
        exact ih

/-- The record the store builds is the id property followed by the two
data properties in declaration order. -/
theorem spreadInto_store_record (swapId : String) (d : SwapStoreData) :
    spreadInto [("id", JsValue.str swapId)] d.toObj =
      ("id", JsValue.str swapId) :: d.toObj := rfl

/-- Removing the id property from the record the store builds gives back
exactly the data object. -/
theorem removeProp_store_record (swapId : String) (d : SwapStoreData) :
    removeProp (("id", JsValue.str swapId) :: d.toObj) "id" = d.toObj := rfl

/-- C8: the swap record store is an overwrite-by-id upsert with a
get-store round trip: after store(id, r), get(id) returns exactly the
stored data object, and storing r1 then r2 under one id leaves get
returning exactly r2 with nothing of r1 surviving. -/
theorem swapStore_store_get_roundtrip (st : SwapTable) (swapId : String)
    (d1 d2 : SwapStoreData) :
    DexieSwapStorageProvider.get (DexieSwapStorageProvider.store st swapId d1)
        swapId = some d1.toObj ∧
    DexieSwapStorageProvider.get
        (DexieSwapStorageProvider.store
          (DexieSwapStorageProvider.store st swapId d1) swapId d2) swapId =
      some d2.toObj := by
  constructor <;>
  · unfold DexieSwapStorageProvider.get DexieSwapStorageProvider.store
    simp [spreadInto_store_record, tableGet_tablePut_self, removeProp_store_record]

/-- Every entry of the table after a put is either the put pair or an
entry of the prior table. -/
theorem mem_tablePut {t : SwapTable} {k : String} {r : JsObject} :
    ∀ q ∈ tablePut t k r, q = (k, r) ∨ q ∈ t := by
  induction t with
  | nil =>
    intro q hq
    simp [tablePut] at hq
    left
    simp [hq]
  | cons p rest ih =>
    intro q hq
    unfold tablePut at hq
    by_cases h1 : k < p.1
    · simp only [if_pos h1, List.mem_cons] at hq
      rcases hq with hq | hq | hq
      · left; simp [hq]
      · right; simp [hq]
      · right; simp [hq]
    · by_cases h2 : k = p.1
      · simp only [if_neg h1, if_pos h2, List.mem_cons] at hq
        rcases hq with hq | hq
        · left; simp [hq]
        · right; simp [hq]
      · simp only [if_neg h1, if_neg h2, List.mem_cons] at hq
        rcases hq with hq | hq
        · right; simp [hq]
        · rcases ih q hq with hq' | hq'
          · left; exact hq'
          · right; simp [hq']

/-- A put preserves the strictly sorted key order of the table. -/
theorem pairwise_tablePut {t : SwapTable} (k : String) (r : JsObject)
    (hs : t.Pairwise (fun a b => a.1 < b.1)) :
    (tablePut t k r).Pairwise (fun a b => a.1 < b.1) := by
  induction t with
  | nil => simp [tablePut]
  | cons p rest ih =>
    rcases List.pairwise_cons.mp hs with ⟨hp, hrest⟩
    unfold tablePut
    by_cases h1 : k < p.1
    · rw [if_pos h1]
      refine List.pairwise_cons.mpr ⟨?_, hs⟩
      intro q hq
      rcases List.mem_cons.mp hq with hq | hq
      · rw [hq]; exact h1
      · exact lt_trans h1 (hp q hq)
    · by_cases h2 : k = p.1
      · rw [if_neg h1, if_pos h2]
        refine List.pairwise_cons.mpr ⟨?_, hrest⟩
        intro q hq
        rw [h2]
        exact hp q hq
      · rw [if_neg h1, if_neg h2]
        refine List.pairwise_cons.mpr ⟨?_, ih hrest⟩
        intro q hq
        rcases mem_tablePut q hq with hq' | hq'
        · rw [hq']
          exact lt_of_le_of_ne (not_lt.mp h1) (fun hh => h2 hh.symm)
        · exact hp q hq'

/-- In a strictly key-sorted table, lookup at the key of a member entry
returns the record of that entry. -/
theorem tableGet_of_mem_sorted {t : SwapTable}
    (hs : t.Pairwise (fun a b => a.1 < b.1)) {p : String × JsObject}
    (hm : p ∈ t) : tableGet t p.1 = some p.2 := by
  induction t with
  | nil => simp at hm
  | cons q rest ih =>
    rcases List.pairwise_cons.mp hs with ⟨hq, hrest⟩
    rcases List.mem_cons.mp hm with heq | hmem
    · rw [heq]
      simp [tableGet, List.find?]
    · have hk : (q.1 == p.1) = false :=
        beq_eq_false_iff_ne.mpr (ne_of_lt (hq p hmem))
      simp only [tableGet, List.find?, hk]
      exact ih hrest hmem

/-- The store operation preserves table well-formedness. -/
theorem tableWF_store (st : SwapTable) (swapId : String) (data : SwapStoreData)
    (h : tableWF st) :
    tableWF (DexieSwapStorageProvider.store st swapId data) := by
  obtain ⟨hs, hshape⟩ := h
  refine ⟨pairwise_tablePut _ _ hs, ?_⟩
  intro p hp
  rcases mem_tablePut p hp with hp' | hp'
  · rw [hp']
    exact ⟨data, spreadInto_store_record swapId data⟩
  · exact hshape p hp'

/-- The delete operation preserves table well-formedness. -/
theorem tableWF_delete (st : SwapTable) (swapId : String) (h : tableWF st) :
    tableWF (DexieSwapStorageProvider.delete st swapId) := by
  obtain ⟨hs, hshape⟩ := h
  refine ⟨List.Pairwise.filter _ hs, ?_⟩
  intro p hp
  exact hshape p (List.mem_of_mem_filter hp)

/-- Every reachable table state is well formed. -/
theorem reachable_tableWF {st : SwapTable} (h : SwapTableReachable st) :
    tableWF st := by
  induction h with
  | empty => exact ⟨List.Pairwise.nil, by simp [tableEmpty]⟩
  | store st swapId data hr ih => exact tableWF_store st swapId data ih
  | delete st swapId hr ih => exact tableWF_delete st swapId ih

/-- C9 (amended): in every reachable store state, getAll returns exactly
one entry per stored id, and each entry is the record get returns for its
id extended with the extra id property Dexie keeps as the primary key;
stripping the id property from an entry yields exactly what get returns. -/
theorem getAll_agrees_with_get_up_to_id (st : SwapTable)
    (h : SwapTableReachable st) :
    (DexieSwapStorageProvider.list st).Nodup ∧
    (DexieSwapStorageProvider.getAll st).length =
      (DexieSwapStorageProvider.list st).length ∧
    (∀ e ∈ DexieSwapStorageProvider.getAll st, ∃ k,
      getProp e "id" = some (JsValue.str k) ∧
      k ∈ DexieSwapStorageProvider.list st ∧
      DexieSwapStorageProvider.get st k = some (removeProp e "id")) := by
  obtain ⟨hs, hshape⟩ := reachable_tableWF h
  refine ⟨?_, ?_, ?_⟩
  · have hmap : (st.map (fun p => p.1)).Pairwise (· < ·) :=
      List.Pairwise.map _ (fun a b hab => hab) hs
    exact hmap.imp (fun hab => ne_of_lt hab)
  · simp [DexieSwapStorageProvider.getAll, DexieSwapStorageProvider.list]
  · intro e he
    unfold DexieSwapStorageProvider.getAll at he
    rcases List.mem_map.mp he with ⟨p, hp, rfl⟩
    obtain ⟨d, hd⟩ := hshape p hp
    refine ⟨p.1, ?_, ?_, ?_⟩
    · rw [hd]
      simp [getProp, List.find?, SwapStoreData.toObj]
    · exact List.mem_map_of_mem _ hp
    · unfold DexieSwapStorageProvider.get
      rw [tableGet_of_mem_sorted hs hp]
      rfl

/-- C9 witness: the amended correspondence instantiated at the reachable
one-record state obtained by storing under the id a. -/
theorem getAll_agrees_with_get_up_to_id_witness :
    (DexieSwapStorageProvider.list
      (DexieSwapStorageProvider.store tableEmpty "a"
        (SwapStoreData.mk (JsValue.blob 0) (JsValue.blob 1)))).Nodup :=
  (getAll_agrees_with_get_up_to_id
    (DexieSwapStorageProvider.store tableEmpty "a"
      (SwapStoreData.mk (JsValue.blob 0) (JsValue.blob 1)))
    (SwapTableReachable.store tableEmpty "a"
      (SwapStoreData.mk (JsValue.blob 0) (JsValue.blob 1))
      SwapTableReachable.empty)).1

/-- C9 counterexample: after storing one record under the id a, the single
getAll entry carries the extra id property and therefore is not equal to
the record get returns for a, refuting field-exact agreement of getAll
with get. -/
theorem getAll_entry_ne_get_record :
    DexieSwapStorageProvider.getAll
        (DexieSwapStorageProvider.store tableEmpty "a"
          (SwapStoreData.mk (JsValue.blob 0) (JsValue.blob 1))) =
      [[("id", JsValue.str "a"), ("response", JsValue.blob 0),
        ("swap_params", JsValue.blob 1)]] ∧
    DexieSwapStorageProvider.get
        (DexieSwapStorageProvider.store tableEmpty "a"
          (SwapStoreData.mk (JsValue.blob 0) (JsValue.blob 1))) "a" =
      some [("response", JsValue.blob 0), ("swap_params", JsValue.blob 1)] ∧
    ([("id", JsValue.str "a"), ("response", JsValue.blob 0),
        ("swap_params", JsValue.blob 1)] : JsObject) ≠
      [("response", JsValue.blob 0), ("swap_params", JsValue.blob 1)] :=
  ⟨rfl, rfl, by decide⟩
